import Mathlib

/-!
Shallow embedding of the base-yield-agent repository, covering the
agent-coordinator service (src/services/agent-coordinator.ts) and the
blockchain tool wrappers (src/tools/blockchain-tools.ts).

Conventions of the embedding:
* JavaScript `Map` objects are modelled as insertion-ordered association
  lists (`Map.set` replaces in place, or appends when the key is new;
  `Map.delete` removes the entry).
* `Date.now()` / `new Date()` are modelled by an explicit `now : Nat`
  argument; `crypto.randomUUID()` by an explicit task-id argument
  (a `Nat → String` supply for the workflow loop).
* JavaScript dynamic values (`any` payloads, results) are modelled by the
  `JValue` type, with JS truthiness made explicit, since the source tests
  `if (result)` / `if (error)` on them.
* External RPC / ABI calls are modelled as oracle functions returning
  `Except String v` (an exception or a value); the tool wrappers are total
  functions of the oracle, so "never throws past the tool boundary" is
  visible in the type.
* `Array.prototype.sort` (stable since ES2019) is modelled by
  `List.mergeSort`, which is stable.
-/

/-- Dynamic JavaScript value (restricted to the shapes the claims need). -/
inductive JValue where
  | jnull
  | jbool (b : Bool)
  | jnum (n : Int)
  | jstr (s : String)
deriving DecidableEq, Repr

/-- JS truthiness of a `JValue`. -/
def JValue.truthy : JValue → Bool
  | .jnull => false
  | .jbool b => b
  | .jnum n => n != 0
  | .jstr s => s != ""

/-- Truthiness of an optional dynamic value (`undefined` is falsy). -/
def truthyOpt : Option JValue → Bool
  | none => false
  | some v => v.truthy

/-- Truthiness of an optional string (`undefined` and `""` are falsy). -/
def truthyStr : Option String → Bool
  | none => false
  | some s => s != ""

/-- `AgentCapability` from agent-coordinator.ts. -/
structure AgentCapability where
  id : String
  name : String
  description : String
  chains : List String
  protocols : List String
  operations : List String
deriving DecidableEq, Repr

/-- `RegisteredAgent` from agent-coordinator.ts (timestamps as `Nat`). -/
structure RegisteredAgent where
  id : String
  name : String
  endpoint : String
  capabilities : List AgentCapability
  registeredAt : Nat
  lastSeen : Nat
  reputation : Int
deriving DecidableEq, Repr

/-- The message `type` tags of `AgentMessage`. -/
inductive MsgType where
  | request
  | response
  | event
  | delegation
deriving DecidableEq, Repr

/-- Task descriptor inside a `TaskDelegation`. -/
structure TaskSpec where
  type : String
  description : String
  parameters : JValue
deriving DecidableEq, Repr

/-- `TaskDelegation.status` values. -/
inductive DelegationStatus where
  | pending
  | inProgress
  | completed
  | failed
deriving DecidableEq, Repr

/-- Message payloads: the two object shapes the coordinator itself builds
(`{taskId, task}` and `{taskId, status, result, error}`) plus an opaque
dynamic value for caller-supplied payloads. -/
inductive MsgPayload where
  | rawPayload (v : JValue)
  | delegationPayload (taskId : String) (task : TaskSpec)
  | responsePayload (taskId : String) (status : DelegationStatus)
      (result : Option JValue) (error : Option String)
deriving DecidableEq, Repr

/-- `AgentMessage` from agent-coordinator.ts. -/
structure AgentMessage where
  from_ : String
  to_ : String
  type : MsgType
  payload : MsgPayload
  timestamp : Nat
  signature : Option String
deriving DecidableEq, Repr

/-- `TaskDelegation` from agent-coordinator.ts. -/
structure TaskDelegation where
  taskId : String
  fromAgent : String
  toAgent : String
  task : TaskSpec
  status : DelegationStatus
  result : Option JValue
  error : Option String
deriving DecidableEq, Repr

/-- Lookup in an insertion-ordered association list (JS `Map.get`). -/
def mapGet {α : Type} : List (String × α) → String → Option α
  | [], _ => none
  | (k, v) :: rest, key => if k == key then some v else mapGet rest key

/-- JS `Map.set`: replace in place when the key exists (keeping its
position), append otherwise. -/
def mapSet {α : Type} : List (String × α) → String → α → List (String × α)
  | [], key, v => [(key, v)]
  | (k, w) :: rest, key, v =>
    if k == key then (key, v) :: rest else (k, w) :: mapSet rest key v

/-- JS `Map.delete`. -/
def mapDelete {α : Type} : List (String × α) → String → List (String × α)
  | [], _ => []
  | (k, w) :: rest, key =>
    if k == key then mapDelete rest key else (k, w) :: mapDelete rest key

/-- The three private `Map` stores of `AgentCoordinatorService`. -/
structure CoordState where
  agents : List (String × RegisteredAgent)
  messages : List (String × List AgentMessage)
  delegations : List (String × TaskDelegation)
deriving DecidableEq, Repr

/-- The empty coordinator (all maps empty, as constructed). -/
def CoordState.empty : CoordState := ⟨[], [], []⟩

/-- Input of `registerAgent`: `Omit<RegisteredAgent, registeredAt | lastSeen | reputation>`. -/
structure AgentInput where
  id : String
  name : String
  endpoint : String
  capabilities : List AgentCapability
deriving DecidableEq, Repr

/-- `registerAgent`: stamp `registeredAt`/`lastSeen` with now, reputation 100,
then `Map.set` by id (overwriting any previous entry). -/
def registerAgent (s : CoordState) (agent : AgentInput) (now : Nat) :
    RegisteredAgent × CoordState :=
  let registeredAgent : RegisteredAgent :=
    { id := agent.id, name := agent.name, endpoint := agent.endpoint
      capabilities := agent.capabilities
      registeredAt := now, lastSeen := now, reputation := 100 }
  (registeredAgent, { s with agents := mapSet s.agents agent.id registeredAgent })

/-- The capability test of `discoverAgents`: some capability lists the tag in
operations, protocols, or chains. -/
def hasCapability (capability : String) (a : RegisteredAgent) : Bool :=
  a.capabilities.any fun cap =>
    cap.operations.contains capability ||
    cap.protocols.contains capability ||
    cap.chains.contains capability

/-- The comparator `(a, b) => b.reputation - a.reputation` of the source,
as a boolean "a may come before b" relation: descending reputation. -/
def repLE (a b : RegisteredAgent) : Bool := b.reputation ≤ a.reputation

/-- The agents matching a capability tag, in store (insertion) order. -/
def matchingAgents (s : CoordState) (capability : String) : List RegisteredAgent :=
  (s.agents.map Prod.snd).filter (hasCapability capability)

/-- `discoverAgents`: linear scan collecting matches, then a stable sort
descending by reputation (`Array.prototype.sort` is stable). -/
def discoverAgents (s : CoordState) (capability : String) : List RegisteredAgent :=
  (matchingAgents s capability).mergeSort repLE

/-- Input of `sendMessage`: `Omit<AgentMessage, timestamp>`. -/
structure MsgInput where
  from_ : String
  to_ : String
  type : MsgType
  payload : MsgPayload
  signature : Option String
deriving DecidableEq, Repr

/-- `sendMessage`: stamp `timestamp := now` and append to the recipient's
mailbox (created when absent). -/
def sendMessage (s : CoordState) (m : MsgInput) (now : Nat) : CoordState :=
  let fullMessage : AgentMessage :=
    { from_ := m.from_, to_ := m.to_, type := m.type, payload := m.payload
      timestamp := now, signature := m.signature }
  let recipientMessages := (mapGet s.messages m.to_).getD []
  { s with messages := mapSet s.messages m.to_ (recipientMessages ++ [fullMessage]) }

/-- `receiveMessages`: return the mailbox (empty when absent) and delete it. -/
def receiveMessages (s : CoordState) (agentId : String) :
    List AgentMessage × CoordState :=
  ((mapGet s.messages agentId).getD [], { s with messages := mapDelete s.messages agentId })

/-- Input of `delegateTask`: `Omit<TaskDelegation, taskId | status>`. -/
structure DelegationInput where
  fromAgent : String
  toAgent : String
  task : TaskSpec
deriving DecidableEq, Repr

/-- The full delegation record `delegateTask` stores: fresh task id, status
pending, no result or error yet. -/
def pendingDelegation (d : DelegationInput) (taskId : String) : TaskDelegation :=
  { taskId := taskId, fromAgent := d.fromAgent, toAgent := d.toAgent
    task := d.task, status := .pending, result := none, error := none }

/-- The delegation-typed message `delegateTask` sends to the target agent. -/
def delegationMsgInput (d : DelegationInput) (taskId : String) : MsgInput :=
  { from_ := d.fromAgent, to_ := d.toAgent, type := .delegation
    payload := .delegationPayload taskId d.task, signature := none }

/-- `delegateTask`: store the delegation with the fresh task id and status
pending, then send a delegation-typed message to the target agent. -/
def delegateTask (s : CoordState) (d : DelegationInput) (taskId : String) (now : Nat) :
    TaskDelegation × CoordState :=
  let s1 : CoordState :=
    { s with delegations := mapSet s.delegations taskId (pendingDelegation d taskId) }
  (pendingDelegation d taskId, sendMessage s1 (delegationMsgInput d taskId) now)

/-- The delegation record after `updateDelegation`: status always set,
result/error overwritten only when the argument is truthy (`if (result)` /
`if (error)` in the source). -/
def updatedDelegation (d : TaskDelegation) (status : DelegationStatus)
    (result : Option JValue) (error : Option String) : TaskDelegation :=
  { d with
    status := status
    result := if truthyOpt result then result else d.result
    error := if truthyStr error then error else d.error }

/-- The response message `updateDelegation` sends back to the originator;
its payload carries the call's arguments. -/
def responseMsgInput (d : TaskDelegation) (taskId : String)
    (status : DelegationStatus) (result : Option JValue) (error : Option String) :
    MsgInput :=
  { from_ := d.toAgent, to_ := d.fromAgent, type := .response
    payload := .responsePayload taskId status result error, signature := none }

/-- `updateDelegation`: throw when the task id is unknown; otherwise set the
status, overwrite result/error only when the argument is truthy, and send a
response-typed message back to the originator. -/
def updateDelegation (s : CoordState) (taskId : String) (status : DelegationStatus)
    (result : Option JValue) (error : Option String) (now : Nat) :
    Except String CoordState :=
  match mapGet s.delegations taskId with
  | none => .error ("Delegation not found: " ++ taskId)
  | some delegation =>
    let s1 : CoordState :=
      { s with delegations :=
          mapSet s.delegations taskId (updatedDelegation delegation status result error) }
    .ok (sendMessage s1 (responseMsgInput delegation taskId status result error) now)

/-- `getDelegation`: plain lookup. -/
def getDelegation (s : CoordState) (taskId : String) : Option TaskDelegation :=
  mapGet s.delegations taskId

/-- `listAgents`: all registered agents in store order. -/
def listAgents (s : CoordState) : List RegisteredAgent :=
  s.agents.map Prod.snd

/-- `updateReputation`: throw when the agent is unknown; otherwise
`reputation := max 0 (min 200 (reputation + delta))` and `lastSeen := now`. -/
def updateReputation (s : CoordState) (agentId : String) (delta : Int) (now : Nat) :
    Except String CoordState :=
  match mapGet s.agents agentId with
  | none => .error ("Agent not found: " ++ agentId)
  | some agent =>
    let agent1 : RegisteredAgent :=
      { agent with reputation := max 0 (min 200 (agent.reputation + delta))
                   lastSeen := now }
    .ok { s with agents := mapSet s.agents agentId agent1 }

/-- One step of a workflow passed to `composeWorkflow`. -/
structure WorkflowStep where
  agentCapability : String
  task : JValue
deriving DecidableEq, Repr

/-- One entry of the `results` array built by `composeWorkflow`. -/
structure StepResult where
  step : String
  agent : String
  result : TaskDelegation
deriving DecidableEq, Repr

/-- The task descriptor `composeWorkflow` builds for a step. -/
def stepTask (name : String) (step : WorkflowStep) : TaskSpec :=
  { type := step.agentCapability
    description := "Workflow step: " ++ name
    parameters := step.task }

/-- The delegation input `composeWorkflow` builds for a step and its chosen
agent: always from "coordinator" to the discovered best agent. -/
def stepDelegationInput (name : String) (step : WorkflowStep)
    (best : RegisteredAgent) : DelegationInput :=
  { fromAgent := "coordinator", toAgent := best.id, task := stepTask name step }

/-- The loop body of `composeWorkflow`: for each step, discover agents by the
step's capability tag; throw when none is found (the exception unwinds the
loop, keeping the state mutated so far); otherwise delegate to the first
(top-reputation) agent and record the delegation as the step's result.
`k` indexes the id supply. -/
def composeGo (name : String) (idGen : Nat → String) (now : Nat) :
    List WorkflowStep → Nat → CoordState →
    Except String (List StepResult) × CoordState
  | [], _, s => (.ok [], s)
  | step :: rest, k, s =>
    match discoverAgents s step.agentCapability with
    | [] => (.error ("No agent found with capability: " ++ step.agentCapability), s)
    | bestAgent :: _ =>
      let dres := delegateTask s (stepDelegationInput name step bestAgent) (idGen k) now
      match composeGo name idGen now rest (k + 1) dres.2 with
      | (.ok results, s2) =>
        (.ok ({ step := step.agentCapability, agent := bestAgent.name
                result := dres.1 } :: results), s2)
      | (.error e, s2) => (.error e, s2)

/-- `composeWorkflow`: run the steps in order from the given state. The first
component is the returned results (or the thrown error); the second is the
coordinator state after the call, which keeps all mutations made before a
throw. -/
def composeWorkflow (s : CoordState) (name : String) (steps : List WorkflowStep)
    (idGen : Nat → String) (now : Nat) :
    Except String (List StepResult) × CoordState :=
  composeGo name idGen now steps 0 s

/-! ## Blockchain tools (src/tools/blockchain-tools.ts)

Each tool wraps external calls (viem RPC reads, ABI encoding) in
`try { ... } catch { return {success:false, ...} }`.  The external calls are
modelled as oracle arguments of type `... → Except String v`: `Except.error`
is a thrown exception, `Except.ok` a returned value.  Each tool's result
object is modelled as a structure with `Option` fields, a field being `none`
exactly when the corresponding JS object literal omits it. -/

/-- The supported chain set (`CHAINS` in blockchain-tools.ts). -/
inductive ChainName where
  | base
  | mainnet
  | arbitrum
  | optimism
  | polygon
deriving DecidableEq, Repr

/-- The chain name as the string key used in result objects. -/
def ChainName.str : ChainName → String
  | .base => "base"
  | .mainnet => "mainnet"
  | .arbitrum => "arbitrum"
  | .optimism => "optimism"
  | .polygon => "polygon"

/-- `CHAINS[chain].id`, the numeric chain id of each viem chain object. -/
def ChainName.chainId : ChainName → Nat
  | .base => 8453
  | .mainnet => 1
  | .arbitrum => 42161
  | .optimism => 10
  | .polygon => 137

/-- Truthy-or-default for optional strings (`value || '0'` in the source). -/
def jsOrDefault (v : Option String) (d : String) : String :=
  match v with
  | some s => if s != "" then s else d
  | none => d

/-- A `client.readContract` request as issued by the tools. -/
structure ReadRequest where
  chain : ChainName
  address : String
  abi : List JValue
  functionName : String
  args : List JValue
deriving DecidableEq, Repr

/-- Parameters of `callContract`. -/
structure CallContractParams where
  chain : ChainName
  contractAddress : String
  functionName : String
  abi : List JValue
  args : Option (List JValue)
deriving DecidableEq, Repr

/-- The result object of `callContract` (fields absent in a branch are `none`). -/
structure CallContractResult where
  success : Bool
  chain : Option ChainName
  contract : Option String
  function : Option String
  result : Option JValue
  error : Option String
deriving DecidableEq, Repr

/-- The read request `callContract` hands to `client.readContract`
(`args` defaulting to `[]`). -/
def callContractRequest (params : CallContractParams) : ReadRequest :=
  { chain := params.chain, address := params.contractAddress
    abi := params.abi, functionName := params.functionName
    args := params.args.getD [] }

/-- `callContract`: forward the read to the RPC client; on success return
`{success:true, chain, contract, function, result}`; on a thrown error return
`{success:false, error, chain, contract}` (no `function`/`result` fields). -/
def callContract (readContract : ReadRequest → Except String JValue)
    (params : CallContractParams) : CallContractResult :=
  match readContract (callContractRequest params) with
  | .ok result =>
    { success := true, chain := some params.chain
      contract := some params.contractAddress
      function := some params.functionName
      result := some result, error := none }
  | .error e =>
    { success := false, error := some e, chain := some params.chain
      contract := some params.contractAddress
      function := none, result := none }

/-- An `encodeFunctionData` request (ABI encoding, no network). -/
structure EncodeRequest where
  abi : List JValue
  functionName : String
  args : List JValue
deriving DecidableEq, Repr

/-- Parameters of the `buildTransaction` tool. -/
structure BuildTxParams where
  chain : ChainName
  contractAddress : String
  functionName : String
  abi : List JValue
  args : Option (List JValue)
  value : Option String
deriving DecidableEq, Repr

/-- The `transaction` object built by the `buildTransaction` tool. -/
structure TxData where
  to_ : String
  data : String
  value : String
  chainId : Nat
deriving DecidableEq, Repr

/-- The result object of the `buildTransaction` tool. -/
structure BuildTxResult where
  success : Bool
  chain : Option ChainName
  transaction : Option TxData
  instructions : Option String
  error : Option String
deriving DecidableEq, Repr

/-- The encode request the `buildTransaction` tool hands to
`encodeFunctionData`. -/
def buildTxRequest (params : BuildTxParams) : EncodeRequest :=
  { abi := params.abi, functionName := params.functionName
    args := params.args.getD [] }

/-- `buildTransactionTool.execute`: ABI-encode the call; on success return
`{success:true, chain, transaction:{to, data, value: value || '0', chainId},
instructions}`; on a thrown error return only `{success:false, error}` —
note that the catch branch echoes no `chain` field. -/
def buildTransaction (encodeFunctionData : EncodeRequest → Except String String)
    (params : BuildTxParams) : BuildTxResult :=
  match encodeFunctionData (buildTxRequest params) with
  | .ok data =>
    { success := true, chain := some params.chain
      transaction := some
        { to_ := params.contractAddress, data := data
          value := jsOrDefault params.value "0"
          chainId := params.chain.chainId }
      instructions := some "User should sign and broadcast this transaction using their wallet"
      error := none }
  | .error e =>
    { success := false, error := some e
      chain := none, transaction := none, instructions := none }

/-- The per-chain slots built by `getMultiChainBalance`: one `balanceOf` read
per requested chain, a failure stored as an error string in that chain's
slot.  The `balances` object is keyed by chain name (JS object semantics:
re-assignment of a key keeps its first position). -/
def chainSlot (balanceOf : ChainName → Except String Nat)
    (chain : ChainName) : String :=
  match balanceOf chain with
  | .ok balance => toString balance
  | .error e => "Error: " ++ e

def multiChainSlots (balanceOf : ChainName → Except String Nat)
    (chains : List ChainName) : List (String × String) :=
  chains.foldl (fun acc chain => mapSet acc chain.str (chainSlot balanceOf chain)) []

/-- The result object of the `getMultiChainBalance` tool. -/
structure MultiChainBalanceResult where
  success : Bool
  address : Option String
  token : Option String
  balances : Option (List (String × String))
  error : Option String
deriving DecidableEq, Repr

/-- `getMultiChainBalanceTool.execute`: each chain's read failure is caught in
that chain's branch, so the outer catch is unreachable and the call always
returns `{success:true, address, token, balances}`. -/
def getMultiChainBalance (balanceOf : ChainName → Except String Nat)
    (address tokenAddress : String) (chains : List ChainName) :
    MultiChainBalanceResult :=
  { success := true, address := some address, token := some tokenAddress
    balances := some (multiChainSlots balanceOf chains), error := none }

/-- `AAVE_POOL_ADDRESSES` from the Aave tool. -/
def aavePoolAddress : ChainName → String
  | .base => "0xA238Dd80C259a72e81d7e4664a9801593F98d1c5"
  | .mainnet => "0x87870Bca3F3fD6335C3F4ce8392D69350B4fA4E2"
  | .arbitrum => "0x794a61358D6845594F94dc1DB02A252b5b4814aD"
  | .optimism => "0x794a61358D6845594F94dc1DB02A252b5b4814aD"
  | .polygon => "0x794a61358D6845594F94dc1DB02A252b5b4814aD"

/-- The Aave `getReserveData` tuple (indices 0..14 of `reserveData`). -/
structure ReserveData where
  configuration : Nat
  liquidityIndex : Nat
  currentLiquidityRate : Nat
  variableBorrowIndex : Nat
  currentVariableBorrowRate : Nat
  currentStableBorrowRate : Nat
  lastUpdateTimestamp : Nat
  id : Nat
  aTokenAddress : String
  stableDebtTokenAddress : String
  variableDebtTokenAddress : String
  interestRateStrategyAddress : String
  accruedToTreasury : Nat
  unbacked : Nat
  isolationModeTotalDebt : Nat
deriving DecidableEq, Repr

/-- `Number.prototype.toFixed(2)` for a nonnegative exact value: the integer
`n` minimizing `|n/100 - q|`, ties to the larger `n`, printed with two
decimal digits. -/
def toFixed2 (q : ℚ) : String :=
  let n : Int := ⌊q * 100 + 1 / 2⌋
  let frac : Int := n % 100
  toString (n / 100) ++ "." ++
    (if frac < 10 then "0" ++ toString frac else toString frac)

/-- Ray units to percent: `(x / 1e27) * 100` (exact rational arithmetic in
place of the source's double-precision pipeline). -/
def rayToPercent (x : Nat) : ℚ := ((x : ℚ) / 10 ^ 27) * 100

/-- The `data` object of the Aave tool's success result (`lastUpdate` kept as
the millisecond value `reserveData[6] * 1000` that the source feeds to
`new Date(...)`). -/
structure AaveData where
  supplyAPY : String
  borrowAPY : String
  aTokenAddress : String
  lastUpdateMs : Nat
deriving DecidableEq, Repr

/-- The result object of the Aave tool. -/
structure AaveResult where
  success : Bool
  chain : Option ChainName
  protocol : Option String
  asset : Option String
  data : Option AaveData
  error : Option String
deriving DecidableEq, Repr

/-- `getAaveDataTool.execute`: read the reserve struct from the hardcoded
per-chain pool; convert `currentLiquidityRate` (index 2) and
`currentVariableBorrowRate` (index 4) from ray to percent, format with
`toFixed(2) + '%'`; on a thrown error return
`{success:false, error, chain, protocol}`. -/
def getAaveData (getReserveData : String → String → Except String ReserveData)
    (chain : ChainName) (asset : String) : AaveResult :=
  match getReserveData (aavePoolAddress chain) asset with
  | .ok reserveData =>
    { success := true, chain := some chain, protocol := some "Aave V3"
      asset := some asset
      data := some
        { supplyAPY := toFixed2 (rayToPercent reserveData.currentLiquidityRate) ++ "%"
          borrowAPY := toFixed2 (rayToPercent reserveData.currentVariableBorrowRate) ++ "%"
          aTokenAddress := reserveData.aTokenAddress
          lastUpdateMs := reserveData.lastUpdateTimestamp * 1000 }
      error := none }
  | .error e =>
    { success := false, error := some e, chain := some chain
      protocol := some "Aave V3", asset := none, data := none }

/-! ## Helper lemmas about the JS-Map model -/

theorem mapGet_mapSet_self {α : Type} (m : List (String × α)) (k : String) (v : α) :
    mapGet (mapSet m k v) k = some v := by
  induction m with
  | nil => simp [mapGet, mapSet]
  | cons p rest ih =>
    obtain ⟨k0, w⟩ := p
    by_cases h : k0 = k
    · simp [mapGet, mapSet, h]
    · simp [mapGet, mapSet, h, ih]

theorem mapGet_mapSet_ne {α : Type} (m : List (String × α)) {k1 k2 : String} (v : α)
    (h : k1 ≠ k2) : mapGet (mapSet m k1 v) k2 = mapGet m k2 := by
  induction m with
  | nil => simp [mapGet, mapSet, h]
  | cons p rest ih =>
    obtain ⟨k0, w⟩ := p
    by_cases h0 : k0 = k1
    · subst h0
      simp [mapGet, mapSet, h]
    · simp only [mapSet, beq_iff_eq, h0, if_false]
      by_cases h2 : k0 = k2
      · simp [mapGet, h2]
      · simp [mapGet, h2, ih]

theorem mapGet_mapDelete_self {α : Type} (m : List (String × α)) (k : String) :
    mapGet (mapDelete m k) k = none := by
  induction m with
  | nil => simp [mapGet, mapDelete]
  | cons p rest ih =>
    obtain ⟨k0, w⟩ := p
    by_cases h : k0 = k
    · simp [mapDelete, h, ih]
    · simp [mapGet, mapDelete, h, ih]

theorem mapSet_mapSet_self {α : Type} (m : List (String × α)) (k : String) (v w : α) :
    mapSet (mapSet m k v) k w = mapSet m k w := by
  induction m with
  | nil => simp [mapSet]
  | cons p rest ih =>
    obtain ⟨k0, u⟩ := p
    by_cases h : k0 = k
    · simp [mapSet, h]
    · simp [mapSet, h, ih]

theorem countP_eq_zero_of_not_memKey {α : Type} (m : List (String × α)) (k : String)
    (h : k ∉ m.map Prod.fst) : m.countP (fun p => p.1 == k) = 0 := by
  induction m with
  | nil => simp
  | cons p rest ih =>
    obtain ⟨k0, w⟩ := p
    simp only [List.map_cons, List.mem_cons] at h
    push_neg at h
    rw [List.countP_cons, ih h.2]
    have hk : (k0 == k) = false := beq_eq_false_iff_ne.mpr (Ne.symm h.1)
    simp [hk]

theorem countP_mapSet {α : Type} (m : List (String × α)) (k : String) (v : α)
    (hnodup : (m.map Prod.fst).Nodup) :
    (mapSet m k v).countP (fun p => p.1 == k) = 1 := by
  induction m with
  | nil => simp [mapSet, List.countP_cons]
  | cons p rest ih =>
    obtain ⟨k0, w⟩ := p
    simp only [List.map_cons, List.nodup_cons] at hnodup
    by_cases h : k0 = k
    · subst h
      simp only [mapSet, beq_self_eq_true, if_true]
      rw [List.countP_cons]
      simp [countP_eq_zero_of_not_memKey rest k0 hnodup.1]
    · simp only [mapSet, beq_iff_eq, h, if_false]
      rw [List.countP_cons]
      have : (k0 == k) = false := by simpa using h
      simp [this, ih hnodup.2]

/-- The mailbox of an agent (empty when absent). -/
def mailbox (s : CoordState) (agentId : String) : List AgentMessage :=
  (mapGet s.messages agentId).getD []

/-- The fully stamped message a `sendMessage` call produces. -/
def stampMsg (p : MsgInput × Nat) : AgentMessage :=
  { from_ := p.1.from_, to_ := p.1.to_, type := p.1.type, payload := p.1.payload
    timestamp := p.2, signature := p.1.signature }

/-- A sequence of `sendMessage` calls, each with its own send time. -/
def sendAll (s : CoordState) (sends : List (MsgInput × Nat)) : CoordState :=
  sends.foldl (fun acc p => sendMessage acc p.1 p.2) s

theorem mailbox_sendMessage_self (s : CoordState) (m : MsgInput) (now : Nat) :
    mailbox (sendMessage s m now) m.to_ = mailbox s m.to_ ++ [stampMsg (m, now)] := by
  simp [mailbox, sendMessage, stampMsg, mapGet_mapSet_self]

theorem mailbox_sendMessage_ne (s : CoordState) (m : MsgInput) (now : Nat)
    (r : String) (h : m.to_ ≠ r) :
    mailbox (sendMessage s m now) r = mailbox s r := by
  simp [mailbox, sendMessage, mapGet_mapSet_ne _ _ h]

theorem mailbox_sendAll (sends : List (MsgInput × Nat)) (s : CoordState) (r : String)
    (hto : ∀ p ∈ sends, p.1.to_ = r) :
    mailbox (sendAll s sends) r = mailbox s r ++ sends.map stampMsg := by
  induction sends generalizing s with
  | nil => simp [sendAll]
  | cons p rest ih =>
    have hp : p.1.to_ = r := hto p (List.mem_cons_self p rest)
    have hrest : ∀ q ∈ rest, q.1.to_ = r := fun q hq => hto q (List.mem_cons_of_mem p hq)
    calc mailbox (sendAll s (p :: rest)) r
        = mailbox (sendAll (sendMessage s p.1 p.2) rest) r := by simp [sendAll]
      _ = mailbox (sendMessage s p.1 p.2) r ++ rest.map stampMsg := ih _ hrest
      _ = mailbox s r ++ (p :: rest).map stampMsg := by
          rw [← hp, mailbox_sendMessage_self]
          simp

/-- C5: a sequence of `sendMessage` calls to one recipient (whose mailbox
starts empty) is returned exactly, in send order, with the send-time stamps,
by a subsequent `receiveMessages`; an immediately following second
`receiveMessages` returns the empty list; and `receiveMessages` for an agent
with no mailbox returns the empty list. -/
theorem sendMessage_receiveMessages_roundtrip
    (s : CoordState) (r : String) (sends : List (MsgInput × Nat))
    (hto : ∀ p ∈ sends, p.1.to_ = r) (hempty : mailbox s r = []) :
    (receiveMessages (sendAll s sends) r).1 = sends.map stampMsg
    ∧ (receiveMessages (receiveMessages (sendAll s sends) r).2 r).1 = []
    ∧ (∀ (t : CoordState) (a : String), mapGet t.messages a = none →
        (receiveMessages t a).1 = []) := by
  refine ⟨?_, ?_, ?_⟩
  · have := mailbox_sendAll sends s r hto
    rw [hempty] at this
    simpa [receiveMessages, mailbox] using this
  · simp [receiveMessages, mapGet_mapDelete_self]
  · intro t a h
    simp [receiveMessages, h]

/-- C5 witness: two messages sent to "bob" from the empty state come back in
send order with their send timestamps, and a second receive is empty. -/
theorem sendMessage_receiveMessages_roundtrip_witness :
    (receiveMessages
      (sendAll CoordState.empty
        [({ from_ := "alice", to_ := "bob", type := .request
            payload := .rawPayload (.jstr "hi"), signature := none }, 5),
         ({ from_ := "carol", to_ := "bob", type := .event
            payload := .rawPayload (.jnum 2), signature := none }, 7)]) "bob").1 =
      [{ from_ := "alice", to_ := "bob", type := .request
         payload := .rawPayload (.jstr "hi"), timestamp := 5, signature := none },
       { from_ := "carol", to_ := "bob", type := .event
         payload := .rawPayload (.jnum 2), timestamp := 7, signature := none }] :=
  (sendMessage_receiveMessages_roundtrip CoordState.empty "bob" _
    (by decide) (by decide)).1

/-- The agent record after `updateReputation`: clamped reputation, fresh
`lastSeen`. -/
def clampedAgent (a : RegisteredAgent) (delta : Int) (now : Nat) : RegisteredAgent :=
  { a with reputation := max 0 (min 200 (a.reputation + delta)), lastSeen := now }

/-- C6: `updateReputation` on an unknown id fails with a not-found error;
on a registered agent it clamps `reputation + delta` into `[0, 200]` and sets
`lastSeen := now`; from any in-range reputation a `+500` delta yields 200 and
a `-500` delta yields 0. -/
theorem updateReputation_clamps
    (s : CoordState) (agentId : String) (delta : Int) (now : Nat) :
    (mapGet s.agents agentId = none →
      updateReputation s agentId delta now = .error ("Agent not found: " ++ agentId))
    ∧ (∀ a : RegisteredAgent, mapGet s.agents agentId = some a →
        updateReputation s agentId delta now =
          .ok { s with agents := mapSet s.agents agentId (clampedAgent a delta now) })
    ∧ (∀ a : RegisteredAgent, mapGet s.agents agentId = some a →
        0 ≤ a.reputation → a.reputation ≤ 200 →
        (∃ s2, updateReputation s agentId 500 now = .ok s2 ∧
          (mapGet s2.agents agentId).map RegisteredAgent.reputation = some 200)
        ∧ (∃ s2, updateReputation s agentId (-500) now = .ok s2 ∧
          (mapGet s2.agents agentId).map RegisteredAgent.reputation = some 0)) := by
  refine ⟨?_, ?_, ?_⟩
  · intro h
    simp [updateReputation, h]
  · intro a h
    simp [updateReputation, clampedAgent, h]
  · intro a h h0 h200
    constructor
    · refine ⟨{ s with agents := mapSet s.agents agentId (clampedAgent a 500 now) },
        by simp [updateReputation, clampedAgent, h], ?_⟩
      rw [mapGet_mapSet_self]
      simp only [Option.map, clampedAgent]
      congr 1
      omega
    · refine ⟨{ s with agents := mapSet s.agents agentId (clampedAgent a (-500) now) },
        by simp [updateReputation, clampedAgent, h], ?_⟩
      rw [mapGet_mapSet_self]
      simp only [Option.map, clampedAgent]
      congr 1
      omega

/-- C6 witness: on a one-agent registry, a `+500` delta clamps to 200, a
`-500` delta clamps to 0, and an unknown id yields the not-found error. -/
theorem updateReputation_clamps_witness :
    (∃ s2, updateReputation
        (registerAgent CoordState.empty
          { id := "a1", name := "n", endpoint := "e", capabilities := [] } 3).2
        "a1" 500 9 = .ok s2 ∧
      (mapGet s2.agents "a1").map RegisteredAgent.reputation = some 200)
    ∧ updateReputation
        (registerAgent CoordState.empty
          { id := "a1", name := "n", endpoint := "e", capabilities := [] } 3).2
        "missing" 500 9 = .error ("Agent not found: " ++ "missing") :=
  ⟨((updateReputation_clamps
      (registerAgent CoordState.empty
        { id := "a1", name := "n", endpoint := "e", capabilities := [] } 3).2
      "a1" 500 9).2.2
      { id := "a1", name := "n", endpoint := "e", capabilities := []
        registeredAt := 3, lastSeen := 3, reputation := 100 }
      (by decide) (by decide) (by decide)).1,
   (updateReputation_clamps
      (registerAgent CoordState.empty
        { id := "a1", name := "n", endpoint := "e", capabilities := [] } 3).2
      "missing" 500 9).1 (by decide)⟩

/-- C7: registering the same id twice leaves exactly one entry under that id;
the stored record (and the returned one) has the second call's fields, both
timestamps stamped at the second call, and reputation reset to 100.  No
uniqueness error exists (`registerAgent` is total) and nothing of the first
record is merged in. -/
theorem registerAgent_overwrites
    (s : CoordState) (a b : AgentInput) (t1 t2 : Nat)
    (hnodup : (s.agents.map Prod.fst).Nodup) (hid : b.id = a.id) :
    ((registerAgent (registerAgent s a t1).2 b t2).2.agents.countP
        (fun q => q.1 == a.id) = 1)
    ∧ mapGet (registerAgent (registerAgent s a t1).2 b t2).2.agents a.id =
        some { id := b.id, name := b.name, endpoint := b.endpoint
               capabilities := b.capabilities
               registeredAt := t2, lastSeen := t2, reputation := 100 }
    ∧ (registerAgent (registerAgent s a t1).2 b t2).1 =
        { id := b.id, name := b.name, endpoint := b.endpoint
          capabilities := b.capabilities
          registeredAt := t2, lastSeen := t2, reputation := 100 } := by
  have hset : (registerAgent (registerAgent s a t1).2 b t2).2.agents =
      mapSet s.agents a.id
        { id := b.id, name := b.name, endpoint := b.endpoint
          capabilities := b.capabilities
          registeredAt := t2, lastSeen := t2, reputation := 100 } := by
    simp [registerAgent, hid, mapSet_mapSet_self]
  refine ⟨?_, ?_, by simp [registerAgent]⟩
  · rw [hset]
    exact countP_mapSet s.agents a.id _ hnodup
  · rw [hset, mapGet_mapSet_self]

/-- C7 witness: registering id "a1" twice from the empty registry leaves one
entry carrying the second call's name/endpoint, stamps 8/8, reputation 100. -/
theorem registerAgent_overwrites_witness :
    ((registerAgent (registerAgent CoordState.empty
        { id := "a1", name := "first", endpoint := "e1", capabilities := [] } 3).2
        { id := "a1", name := "second", endpoint := "e2", capabilities := [] } 8).2.agents.countP
        (fun q => q.1 == "a1") = 1)
    ∧ mapGet (registerAgent (registerAgent CoordState.empty
        { id := "a1", name := "first", endpoint := "e1", capabilities := [] } 3).2
        { id := "a1", name := "second", endpoint := "e2", capabilities := [] } 8).2.agents "a1" =
        some { id := "a1", name := "second", endpoint := "e2", capabilities := []
               registeredAt := 8, lastSeen := 8, reputation := 100 } :=
  ⟨(registerAgent_overwrites CoordState.empty
      { id := "a1", name := "first", endpoint := "e1", capabilities := [] }
      { id := "a1", name := "second", endpoint := "e2", capabilities := [] }
      3 8 (by decide) (by decide)).1,
   (registerAgent_overwrites CoordState.empty
      { id := "a1", name := "first", endpoint := "e1", capabilities := [] }
      { id := "a1", name := "second", endpoint := "e2", capabilities := [] }
      3 8 (by decide) (by decide)).2.1⟩

/-! ## Blockchain-tool theorems -/

theorem chainNameStr_injective (x y : ChainName) (h : x.str = y.str) : x = y := by
  cases x <;> cases y <;> first | rfl | (exfalso; simp [ChainName.str] at h)

theorem mapGet_multiChainFold_of_not_mem (balanceOf : ChainName → Except String Nat)
    (chains : List ChainName) (acc : List (String × String)) (c : ChainName)
    (hc : c ∉ chains) :
    mapGet (chains.foldl
      (fun acc chain => mapSet acc chain.str (chainSlot balanceOf chain)) acc) c.str =
    mapGet acc c.str := by
  induction chains generalizing acc with
  | nil => rfl
  | cons d rest ih =>
    simp only [List.mem_cons] at hc
    push_neg at hc
    rw [List.foldl_cons, ih _ hc.2,
      mapGet_mapSet_ne _ _ (fun hd => hc.1 (chainNameStr_injective d c hd).symm)]

theorem mapGet_multiChainSlots (balanceOf : ChainName → Except String Nat)
    (chains : List ChainName) (acc : List (String × String)) (c : ChainName)
    (hc : c ∈ chains) :
    mapGet (chains.foldl
      (fun acc chain => mapSet acc chain.str (chainSlot balanceOf chain)) acc) c.str =
    some (chainSlot balanceOf c) := by
  induction chains generalizing acc with
  | nil => exact absurd hc (List.not_mem_nil c)
  | cons d rest ih =>
    by_cases hr : c ∈ rest
    · rw [List.foldl_cons]
      exact ih _ hr
    · have hcd : c = d := by
        rcases List.mem_cons.mp hc with h | h
        · exact h
        · exact absurd h hr
      subst hcd
      rw [List.foldl_cons, mapGet_multiChainFold_of_not_mem _ _ _ _ hr,
        mapGet_mapSet_self]

/-- C8: for every member chain of a multi-chain balance request, a failing
per-chain read is recorded as an error string in that chain's slot, a
successful read as the numeric balance string, and the overall call returns
success regardless. -/
theorem getMultiChainBalance_partial_failure
    (balanceOf : ChainName → Except String Nat) (address tokenAddress : String)
    (chains : List ChainName) (c : ChainName) (hc : c ∈ chains) :
    (getMultiChainBalance balanceOf address tokenAddress chains).success = true
    ∧ (getMultiChainBalance balanceOf address tokenAddress chains).balances =
        some (multiChainSlots balanceOf chains)
    ∧ (∀ e, balanceOf c = .error e →
        mapGet (multiChainSlots balanceOf chains) c.str = some ("Error: " ++ e))
    ∧ (∀ n, balanceOf c = .ok n →
        mapGet (multiChainSlots balanceOf chains) c.str = some (toString n)) := by
  refine ⟨rfl, rfl, ?_, ?_⟩
  · intro e he
    rw [multiChainSlots, mapGet_multiChainSlots _ _ _ _ hc]
    simp [chainSlot, he]
  · intro n hn
    rw [multiChainSlots, mapGet_multiChainSlots _ _ _ _ hc]
    simp [chainSlot, hn]

/-- C8 witness: with the base read throwing and the mainnet read returning
42, the call succeeds, base's slot holds the error string and mainnet's the
numeric string. -/
theorem getMultiChainBalance_partial_failure_witness :
    (getMultiChainBalance
      (fun c => match c with
        | .base => .error "rpc down"
        | _ => .ok 42) "0xme" "0xtok" [.base, .mainnet]).success = true
    ∧ mapGet (multiChainSlots
        (fun c => match c with
          | .base => .error "rpc down"
          | _ => .ok 42) [.base, .mainnet]) "base" = some ("Error: " ++ "rpc down")
    ∧ mapGet (multiChainSlots
        (fun c => match c with
          | .base => .error "rpc down"
          | _ => .ok 42) [.base, .mainnet]) "mainnet" = some (toString 42) :=
  ⟨(getMultiChainBalance_partial_failure _ "0xme" "0xtok"
      [.base, .mainnet] .base (by decide)).1,
   (getMultiChainBalance_partial_failure _ "0xme" "0xtok"
      [.base, .mainnet] .base (by decide)).2.2.1 "rpc down" rfl,
   (getMultiChainBalance_partial_failure _ "0xme" "0xtok"
      [.base, .mainnet] .mainnet (by decide)).2.2.2 42 rfl⟩

/-- C4 counterexample: the claim requires every tool's error envelope to echo
`chain`, but `buildTransaction`'s catch branch returns only
`{success:false, error}`: at a concrete failing encode the envelope's chain
field is absent. -/
theorem buildTransaction_error_omits_chain :
    (buildTransaction (fun _ => Except.error "malformed ABI")
      { chain := .base, contractAddress := "0xc", functionName := "transfer"
        abi := [], args := none, value := none }).success = false
    ∧ (buildTransaction (fun _ => Except.error "malformed ABI")
      { chain := .base, contractAddress := "0xc", functionName := "transfer"
        abi := [], args := none, value := none }).error = some "malformed ABI"
    ∧ (buildTransaction (fun _ => Except.error "malformed ABI")
      { chain := .base, contractAddress := "0xc", functionName := "transfer"
        abi := [], args := none, value := none }).chain = none := by
  refine ⟨rfl, rfl, rfl⟩

/-- C4 (amended): both tools are total functions of their oracle, so no
exception crosses the tool boundary; `callContract` converts a thrown error
to `{success:false, error, chain, contract}` and a success to
`{success:true, chain, contract, function, result}`; `buildTransaction`
converts a thrown error to just `{success:false, error}` (no chain echoed)
and a success to `{success:true, chain, transaction, instructions}`. -/
theorem tool_error_envelopes :
    (∀ (ro : ReadRequest → Except String JValue) (p : CallContractParams) (e : String),
      ro (callContractRequest p) = .error e →
      callContract ro p =
        { success := false, chain := some p.chain, contract := some p.contractAddress
          function := none, result := none, error := some e })
    ∧ (∀ (ro : ReadRequest → Except String JValue) (p : CallContractParams) (v : JValue),
      ro (callContractRequest p) = .ok v →
      callContract ro p =
        { success := true, chain := some p.chain, contract := some p.contractAddress
          function := some p.functionName, result := some v, error := none })
    ∧ (∀ (enc : EncodeRequest → Except String String) (p : BuildTxParams) (e : String),
      enc (buildTxRequest p) = .error e →
      buildTransaction enc p =
        { success := false, chain := none, transaction := none
          instructions := none, error := some e })
    ∧ (∀ (enc : EncodeRequest → Except String String) (p : BuildTxParams) (d : String),
      enc (buildTxRequest p) = .ok d →
      buildTransaction enc p =
        { success := true, chain := some p.chain
          transaction := some { to_ := p.contractAddress, data := d
                                value := jsOrDefault p.value "0"
                                chainId := p.chain.chainId }
          instructions := some "User should sign and broadcast this transaction using their wallet"
          error := none }) := by
  refine ⟨?_, ?_, ?_, ?_⟩
  · intro ro p e h
    simp [callContract, h]
  · intro ro p v h
    simp [callContract, h]
  · intro enc p e h
    simp [buildTransaction, h]
  · intro enc p d h
    simp [buildTransaction, h]

/-- C4 witness: a throwing read yields the callContract error envelope with
chain and contract echoed; a successful encode with `value := ""` yields the
success envelope with `value` defaulted to "0" and chainId 137. -/
theorem tool_error_envelopes_witness :
    callContract (fun _ => Except.error "network failure")
      { chain := .base, contractAddress := "0xa", functionName := "balanceOf"
        abi := [], args := none } =
      { success := false, chain := some .base, contract := some "0xa"
        function := none, result := none, error := some "network failure" }
    ∧ buildTransaction (fun _ => Except.ok "0xdata")
      { chain := .polygon, contractAddress := "0xb", functionName := "f"
        abi := [], args := none, value := some "" } =
      { success := true, chain := some .polygon
        transaction := some { to_ := "0xb", data := "0xdata"
                              value := "0", chainId := 137 }
        instructions := some "User should sign and broadcast this transaction using their wallet"
        error := none } :=
  ⟨tool_error_envelopes.1 _ _ "network failure" rfl,
   by
    have h := tool_error_envelopes.2.2.2 (fun _ => Except.ok "0xdata")
      { chain := .polygon, contractAddress := "0xb", functionName := "f"
        abi := [], args := none, value := some "" } "0xdata" rfl
    simpa [jsOrDefault, ChainName.chainId] using h⟩

/-- C9: the Aave tool converts `currentLiquidityRate` (and the variable
borrow rate) from ray units to a percentage by dividing by 1e27 and
multiplying by 100, formatted by `toFixed(2)` with a `%` suffix; a raw rate
of 5e25 yields the supply APY string "5.00%". -/
theorem getAaveData_ray_conversion
    (getReserveData : String → String → Except String ReserveData)
    (chain : ChainName) (asset : String) (rd : ReserveData)
    (h : getReserveData (aavePoolAddress chain) asset = .ok rd) :
    (getAaveData getReserveData chain asset).data =
      some { supplyAPY := toFixed2 (rayToPercent rd.currentLiquidityRate) ++ "%"
             borrowAPY := toFixed2 (rayToPercent rd.currentVariableBorrowRate) ++ "%"
             aTokenAddress := rd.aTokenAddress
             lastUpdateMs := rd.lastUpdateTimestamp * 1000 }
    ∧ (rd.currentLiquidityRate = 5 * 10 ^ 25 →
        ((getAaveData getReserveData chain asset).data.map AaveData.supplyAPY) =
          some "5.00%") := by
  constructor
  · simp [getAaveData, h]
  · intro hrate
    have h500 : toFixed2 (rayToPercent (5 * 10 ^ 25)) = "5.00" := by
      have hq : rayToPercent (5 * 10 ^ 25) = 5 := by
        rw [rayToPercent]
        norm_num
      rw [toFixed2, hq]
      norm_num
      decide
    simp only [getAaveData, h, hrate, Option.map]
    have hnum : (50000000000000000000000000 : ℕ) = 5 * 10 ^ 25 := by norm_num
    simp only [hnum, h500]
    rfl

/-- A sample Aave reserve struct whose liquidity rate is the 5e25 of the
spec's test vector. -/
def sampleReserve : ReserveData :=
  { configuration := 0, liquidityIndex := 0
    currentLiquidityRate := 5 * 10 ^ 25
    variableBorrowIndex := 0, currentVariableBorrowRate := 3 * 10 ^ 25
    currentStableBorrowRate := 0, lastUpdateTimestamp := 1700000000, id := 1
    aTokenAddress := "0xaTok", stableDebtTokenAddress := "0xs"
    variableDebtTokenAddress := "0xv", interestRateStrategyAddress := "0xi"
    accruedToTreasury := 0, unbacked := 0, isolationModeTotalDebt := 0 }

/-- C9 witness: a reserve read returning a raw liquidity rate of 5e25 yields
the supply APY string "5.00%". -/
theorem getAaveData_ray_conversion_witness :
    ((getAaveData (fun _ _ => .ok sampleReserve) .base "0xUSDC").data.map
      AaveData.supplyAPY) = some "5.00%" :=
  (getAaveData_ray_conversion (fun _ _ => .ok sampleReserve) .base "0xUSDC"
    sampleReserve rfl).2 rfl

/-- The state after one `delegateTask` from the empty coordinator (task id
"task-1", originator "alice", target "bob"). -/
def c2State : CoordState :=
  (delegateTask CoordState.empty
    { fromAgent := "alice", toAgent := "bob"
      task := { type := "quote", description := "d", parameters := .jnull } }
    "task-1" 10).2

/-- C2 counterexample: calling `updateDelegation` with the provided (but
falsy) result `0` succeeds, yet the stored result stays `none` instead of
being overwritten by the provided argument, because the source guards the
assignment with JS truthiness (`if (result)`). -/
theorem updateDelegation_falsy_result_not_stored :
    (updateDelegation c2State "task-1" .completed (some (.jnum 0)) none 11).isOk = true
    ∧ ((updateDelegation c2State "task-1" .completed (some (.jnum 0)) none 11).toOption.bind
        (fun s2 => (getDelegation s2 "task-1").map TaskDelegation.result)) = some none
    ∧ ((updateDelegation c2State "task-1" .completed (some (.jnum 0)) none 11).toOption.bind
        (fun s2 => (getDelegation s2 "task-1").map TaskDelegation.result)) ≠
        some (some (.jnum 0)) := by
  refine ⟨rfl, rfl, by decide⟩

/-- C2 (amended): `updateDelegation` on an unknown task id fails with the
not-found error; on a stored delegation it sets the status, overwrites
result/error exactly when the argument is provided AND truthy, and appends
one response-typed message to the originator's mailbox carrying the call's
status/result/error arguments and the same task id; `delegateTask` stores
the delegation with status pending (so `getDelegation` returns pending
before any update). -/
theorem updateDelegation_spec (s : CoordState) (taskId : String)
    (status : DelegationStatus) (result : Option JValue) (error : Option String)
    (now : Nat) :
    (mapGet s.delegations taskId = none →
      updateDelegation s taskId status result error now =
        .error ("Delegation not found: " ++ taskId))
    ∧ (∀ d : TaskDelegation, mapGet s.delegations taskId = some d →
        ∃ s2, updateDelegation s taskId status result error now = .ok s2
          ∧ getDelegation s2 taskId = some (updatedDelegation d status result error)
          ∧ mailbox s2 d.fromAgent = mailbox s d.fromAgent ++
              [stampMsg (responseMsgInput d taskId status result error, now)])
    ∧ (∀ (din : DelegationInput) (tid : String) (t : Nat),
        getDelegation (delegateTask s din tid t).2 tid = some
          { taskId := tid, fromAgent := din.fromAgent, toAgent := din.toAgent
            task := din.task, status := .pending, result := none, error := none }) := by
  refine ⟨?_, ?_, ?_⟩
  · intro h
    simp [updateDelegation, h]
  · intro d hd
    refine ⟨_, by rw [updateDelegation, hd], ?_, ?_⟩
    · show mapGet (sendMessage _ _ _).delegations taskId = _
      have hmsg : (sendMessage
          { s with delegations :=
              mapSet s.delegations taskId (updatedDelegation d status result error) }
          (responseMsgInput d taskId status result error) now).delegations =
          mapSet s.delegations taskId (updatedDelegation d status result error) := rfl
      rw [hmsg, mapGet_mapSet_self]
    · have h1 := mailbox_sendMessage_self
        { s with delegations :=
            mapSet s.delegations taskId (updatedDelegation d status result error) }
        (responseMsgInput d taskId status result error) now
      simpa [responseMsgInput, mailbox] using h1
  · intro din tid t
    have hdeleg : (delegateTask s din tid t).2.delegations =
        mapSet s.delegations tid (pendingDelegation din tid) := rfl
    rw [getDelegation, hdeleg, mapGet_mapSet_self]
    rfl

/-- C2 witness: on the post-delegate state, updating task-1 to completed
with the truthy result 7 succeeds, stores status completed with result 7,
and appends the response message to alice's mailbox. -/
theorem updateDelegation_spec_witness :
    (∃ s2, updateDelegation c2State "task-1" .completed (some (.jnum 7)) none 11 = .ok s2
      ∧ getDelegation s2 "task-1" = some (updatedDelegation
          { taskId := "task-1", fromAgent := "alice", toAgent := "bob"
            task := { type := "quote", description := "d", parameters := .jnull }
            status := .pending, result := none, error := none }
          .completed (some (.jnum 7)) none)
      ∧ mailbox s2 "alice" = mailbox c2State "alice" ++
          [stampMsg (responseMsgInput
            { taskId := "task-1", fromAgent := "alice", toAgent := "bob"
              task := { type := "quote", description := "d", parameters := .jnull }
              status := .pending, result := none, error := none }
            "task-1" .completed (some (.jnum 7)) none, 11)])
    ∧ getDelegation c2State "task-1" = some
        { taskId := "task-1", fromAgent := "alice", toAgent := "bob"
          task := { type := "quote", description := "d", parameters := .jnull }
          status := .pending, result := none, error := none } :=
  ⟨(updateDelegation_spec c2State "task-1" .completed (some (.jnum 7)) none 11).2.1
      { taskId := "task-1", fromAgent := "alice", toAgent := "bob"
        task := { type := "quote", description := "d", parameters := .jnull }
        status := .pending, result := none, error := none } (by decide),
   (updateDelegation_spec CoordState.empty "task-1" .completed none none 0).2.2
      { fromAgent := "alice", toAgent := "bob"
        task := { type := "quote", description := "d", parameters := .jnull } }
      "task-1" 10⟩

/-! ## Discovery: filter, sort, stability (C1) -/

theorem repLE_trans (a b c : RegisteredAgent) (hab : repLE a b) (hbc : repLE b c) :
    repLE a c := by
  simp only [repLE, decide_eq_true_eq] at *
  omega

theorem repLE_total (a b : RegisteredAgent) : repLE a b || repLE b a := by
  simp only [repLE, Bool.or_eq_true, decide_eq_true_eq]
  omega

/-- C1: `discoverAgents(tag)` returns exactly the registered agents having
the tag in some capability's operations, protocols or chains (a permutation
of the store-order filter, so membership is the OR of the three sets across
all capabilities), sorted descending by reputation; the sort is stable, so
two matching agents in store order whose reputations satisfy the descending
order (in particular, equal-reputation agents) stay in store order. -/
theorem discoverAgents_sorted_stable (s : CoordState) (tag : String) :
    (discoverAgents s tag).Perm (matchingAgents s tag)
    ∧ (∀ a : RegisteredAgent, a ∈ discoverAgents s tag ↔
        a ∈ listAgents s ∧ hasCapability tag a = true)
    ∧ (discoverAgents s tag).Pairwise
        (fun a b => b.reputation ≤ a.reputation)
    ∧ (∀ a b : RegisteredAgent, List.Sublist [a, b] (matchingAgents s tag) →
        b.reputation ≤ a.reputation →
        List.Sublist [a, b] (discoverAgents s tag)) := by
  refine ⟨List.mergeSort_perm _ _, ?_, ?_, ?_⟩
  · intro a
    rw [discoverAgents, (List.mergeSort_perm (matchingAgents s tag) repLE).mem_iff,
      matchingAgents, List.mem_filter]
    rfl
  · exact (List.sorted_mergeSort repLE_trans repLE_total
      (matchingAgents s tag)).imp (fun h => by simpa [repLE] using h)
  · intro a b hsub hrep
    exact List.sublist_mergeSort repLE_trans repLE_total
      (by simp [List.pairwise_cons, repLE, hrep]) hsub

/-- A two-agent registry: "a" then "b", both with reputation 100 and a
capability whose chains contain "base". -/
def c1State : CoordState :=
  (registerAgent
    (registerAgent CoordState.empty
      { id := "a", name := "Na", endpoint := "e"
        capabilities := [{ id := "c", name := "c", description := ""
                           chains := ["base"], protocols := [], operations := [] }] } 1).2
    { id := "b", name := "Nb", endpoint := "e"
      capabilities := [{ id := "c", name := "c", description := ""
                         chains := ["base"], protocols := [], operations := [] }] } 2).2

/-- C1 witness: the two equal-reputation agents "a" and "b" keep their
insertion order in the discovery output. -/
theorem discoverAgents_sorted_stable_witness :
    List.Sublist
      [{ id := "a", name := "Na", endpoint := "e"
         capabilities := [{ id := "c", name := "c", description := ""
                            chains := ["base"], protocols := [], operations := [] }]
         registeredAt := 1, lastSeen := 1, reputation := 100 },
       { id := "b", name := "Nb", endpoint := "e"
         capabilities := [{ id := "c", name := "c", description := ""
                            chains := ["base"], protocols := [], operations := [] }]
         registeredAt := 2, lastSeen := 2, reputation := 100 }]
      (discoverAgents c1State "base") :=
  (discoverAgents_sorted_stable c1State "base").2.2.2 _ _ (by decide) (by decide)

/-! ## Workflow composition: spec-side description and lemmas (C3, C10) -/

/-- Placeholder agent for `headD` (never used under a nonempty-match
hypothesis). -/
def defaultAgent : RegisteredAgent :=
  { id := "", name := "", endpoint := "", capabilities := []
    registeredAt := 0, lastSeen := 0, reputation := 0 }

/-- The agent `composeWorkflow` picks for a tag: the first element of the
discovery result (top reputation, first registered among ties). -/
def topAgent (s : CoordState) (tag : String) : RegisteredAgent :=
  (discoverAgents s tag).headD defaultAgent

/-- Modelled from the spec: the per-step result `composeWorkflow` records —
the step's tag, the chosen agent's name, and the pending delegation record
itself (no completion is awaited). -/
def expectedStepResult (s : CoordState) (name : String) (idGen : Nat → String)
    (p : Nat × WorkflowStep) : StepResult :=
  { step := p.2.agentCapability
    agent := (topAgent s p.2.agentCapability).name
    result := pendingDelegation
      (stepDelegationInput name p.2 (topAgent s p.2.agentCapability)) (idGen p.1) }

/-- Modelled from the spec: the ordered list of per-step results of a fully
matching workflow, all discoveries evaluated on the initial state (the loop
never mutates the agents store). -/
def composeSpec (s : CoordState) (name : String) (idGen : Nat → String)
    (steps : List WorkflowStep) (k : Nat) : List StepResult :=
  (steps.enumFrom k).map (expectedStepResult s name idGen)

/-- The delegation message sent for a step of a workflow. -/
def expectedDelegationMsg (s : CoordState) (name : String) (idGen : Nat → String)
    (now : Nat) (p : Nat × WorkflowStep) : AgentMessage :=
  stampMsg (delegationMsgInput
    (stepDelegationInput name p.2 (topAgent s p.2.agentCapability)) (idGen p.1), now)

theorem delegateTask_agents (s : CoordState) (d : DelegationInput)
    (tid : String) (now : Nat) : (delegateTask s d tid now).2.agents = s.agents := rfl

theorem discoverAgents_congr (s1 s2 : CoordState) (h : s1.agents = s2.agents)
    (tag : String) : discoverAgents s1 tag = discoverAgents s2 tag := by
  simp [discoverAgents, matchingAgents, h]

theorem topAgent_congr (s1 s2 : CoordState) (h : s1.agents = s2.agents)
    (tag : String) : topAgent s1 tag = topAgent s2 tag := by
  simp [topAgent, discoverAgents_congr s1 s2 h]

theorem composeSpec_congr (s1 s2 : CoordState) (h : s1.agents = s2.agents)
    (name : String) (idGen : Nat → String) (steps : List WorkflowStep) (k : Nat) :
    composeSpec s1 name idGen steps k = composeSpec s2 name idGen steps k := by
  simp [composeSpec, expectedStepResult, topAgent_congr s1 s2 h]

theorem expectedDelegationMsg_congr (s1 s2 : CoordState) (h : s1.agents = s2.agents)
    (name : String) (idGen : Nat → String) (now : Nat) (p : Nat × WorkflowStep) :
    expectedDelegationMsg s1 name idGen now p = expectedDelegationMsg s2 name idGen now p := by
  simp [expectedDelegationMsg, topAgent_congr s1 s2 h]

theorem discoverAgents_eq_nil_iff (s : CoordState) (tag : String) :
    discoverAgents s tag = [] ↔ matchingAgents s tag = [] := by
  constructor
  · intro h
    have hp := List.mergeSort_perm (matchingAgents s tag) repLE
    rw [discoverAgents] at h
    rw [h] at hp
    exact hp.nil_eq.symm
  · intro h
    rw [discoverAgents, h]
    simp

theorem composeGo_cons_snd (name : String) (idGen : Nat → String) (now : Nat)
    (step : WorkflowStep) (rest : List WorkflowStep) (k : Nat) (s : CoordState)
    (best : RegisteredAgent) (tail : List RegisteredAgent)
    (hdisc : discoverAgents s step.agentCapability = best :: tail) :
    (composeGo name idGen now (step :: rest) k s).2 =
      (composeGo name idGen now rest (k + 1)
        (delegateTask s (stepDelegationInput name step best) (idGen k) now).2).2 := by
  rcases hrec : composeGo name idGen now rest (k + 1)
    (delegateTask s (stepDelegationInput name step best) (idGen k) now).2 with ⟨res, s2⟩
  simp only [composeGo, hdisc, hrec]
  cases res <;> simp

theorem composeGo_ok (name : String) (idGen : Nat → String) (now : Nat) :
    ∀ (steps : List WorkflowStep) (k : Nat) (s : CoordState),
    (∀ st ∈ steps, discoverAgents s st.agentCapability ≠ []) →
    (composeGo name idGen now steps k s).1 = .ok (composeSpec s name idGen steps k) := by
  intro steps
  induction steps with
  | nil => intro k s _; simp [composeGo, composeSpec]
  | cons step rest ih =>
    intro k s hmatch
    rcases hdisc : discoverAgents s step.agentCapability with _ | ⟨best, tail⟩
    · exact absurd hdisc (hmatch step (List.mem_cons_self step rest))
    · have hagents : (delegateTask s (stepDelegationInput name step best)
          (idGen k) now).2.agents = s.agents := rfl
      have hrest : ∀ st ∈ rest, discoverAgents
          (delegateTask s (stepDelegationInput name step best) (idGen k) now).2
          st.agentCapability ≠ [] := by
        intro st hst
        rw [discoverAgents_congr _ s hagents]
        exact hmatch st (List.mem_cons_of_mem step hst)
      have hih := ih (k + 1)
        (delegateTask s (stepDelegationInput name step best) (idGen k) now).2 hrest
      rcases hrec : composeGo name idGen now rest (k + 1)
        (delegateTask s (stepDelegationInput name step best) (idGen k) now).2 with ⟨res, s2⟩
      rw [hrec] at hih
      rw [composeSpec_congr _ s hagents] at hih
      simp only at hih
      subst hih
      simp only [composeGo, hdisc, hrec]
      simp only [composeSpec, List.enumFrom_cons, List.map_cons]
      simp [expectedStepResult, topAgent, hdisc, delegateTask]

theorem composeGo_error (name : String) (idGen : Nat → String) (now : Nat)
    (failStep : WorkflowStep) (post : List WorkflowStep) :
    ∀ (pre : List WorkflowStep) (k : Nat) (s : CoordState),
    (∀ st ∈ pre, discoverAgents s st.agentCapability ≠ []) →
    discoverAgents s failStep.agentCapability = [] →
    composeGo name idGen now (pre ++ failStep :: post) k s =
      (.error ("No agent found with capability: " ++ failStep.agentCapability),
       (composeGo name idGen now pre k s).2) := by
  intro pre
  induction pre with
  | nil =>
    intro k s _ hfail
    simp [composeGo, hfail]
  | cons step rest ih =>
    intro k s hmatch hfail
    rcases hdisc : discoverAgents s step.agentCapability with _ | ⟨best, tail⟩
    · exact absurd hdisc (hmatch step (List.mem_cons_self step rest))
    · have hagents : (delegateTask s (stepDelegationInput name step best)
          (idGen k) now).2.agents = s.agents := rfl
      have hrest : ∀ st ∈ rest, discoverAgents
          (delegateTask s (stepDelegationInput name step best) (idGen k) now).2
          st.agentCapability ≠ [] := by
        intro st hst
        rw [discoverAgents_congr _ s hagents]
        exact hmatch st (List.mem_cons_of_mem step hst)
      have hfail2 : discoverAgents
          (delegateTask s (stepDelegationInput name step best) (idGen k) now).2
          failStep.agentCapability = [] := by
        rw [discoverAgents_congr _ s hagents]
        exact hfail
      have hih := ih (k + 1)
        (delegateTask s (stepDelegationInput name step best) (idGen k) now).2 hrest hfail2
      have hih2 : composeGo name idGen now (rest.append (failStep :: post)) (k + 1)
          (delegateTask s (stepDelegationInput name step best) (idGen k) now).2 =
          (Except.error ("No agent found with capability: " ++ failStep.agentCapability),
            (composeGo name idGen now rest (k + 1)
              (delegateTask s (stepDelegationInput name step best) (idGen k) now).2).2) := hih
      rw [composeGo_cons_snd name idGen now step rest k s best tail hdisc]
      simp only [List.cons_append, composeGo, hdisc, hih2]

theorem delegateTask_delegations (s : CoordState) (d : DelegationInput)
    (tid : String) (now : Nat) :
    (delegateTask s d tid now).2.delegations =
      mapSet s.delegations tid (pendingDelegation d tid) := rfl

theorem composeGo_preserves_delegation (name : String) (idGen : Nat → String) (now : Nat) :
    ∀ (steps : List WorkflowStep) (k : Nat) (s : CoordState) (tid : String)
      (d : TaskDelegation),
    (∀ j, k ≤ j → j < k + steps.length → idGen j ≠ tid) →
    getDelegation s tid = some d →
    getDelegation (composeGo name idGen now steps k s).2 tid = some d := by
  intro steps
  induction steps with
  | nil => intro k s tid d _ hd; simpa [composeGo] using hd
  | cons step rest ih =>
    intro k s tid d hids hd
    rcases hdisc : discoverAgents s step.agentCapability with _ | ⟨best, tail⟩
    · simp only [composeGo, hdisc]
      exact hd
    · have hne : idGen k ≠ tid := hids k (Nat.le_refl k) (by simp [Nat.lt_add_one_iff])
      have hs2 : getDelegation
          (delegateTask s (stepDelegationInput name step best) (idGen k) now).2 tid =
          some d := by
        rw [getDelegation, delegateTask_delegations, mapGet_mapSet_ne _ _ hne]
        exact hd
      rw [composeGo_cons_snd name idGen now step rest k s best tail hdisc]
      exact ih (k + 1) _ tid d (fun j h1 h2 => hids j (by omega) (by simp at *; omega)) hs2

theorem mailbox_sendMessage_mono (s : CoordState) (m : MsgInput) (now : Nat)
    (r : String) (msg : AgentMessage) (h : msg ∈ mailbox s r) :
    msg ∈ mailbox (sendMessage s m now) r := by
  by_cases hr : m.to_ = r
  · subst hr
    rw [mailbox_sendMessage_self]
    exact List.mem_append_left _ h
  · rw [mailbox_sendMessage_ne s m now r hr]
    exact h

theorem delegateTask_mailbox_mono (s : CoordState) (d : DelegationInput)
    (tid : String) (now : Nat) (r : String) (msg : AgentMessage)
    (h : msg ∈ mailbox s r) : msg ∈ mailbox (delegateTask s d tid now).2 r := by
  show msg ∈ mailbox (sendMessage
    { s with delegations := mapSet s.delegations tid (pendingDelegation d tid) }
    (delegationMsgInput d tid) now) r
  exact mailbox_sendMessage_mono _ _ _ _ _ h

theorem delegateTask_message_sent (s : CoordState) (d : DelegationInput)
    (tid : String) (now : Nat) :
    stampMsg (delegationMsgInput d tid, now) ∈
      mailbox (delegateTask s d tid now).2 d.toAgent := by
  have h := mailbox_sendMessage_self
    { s with delegations := mapSet s.delegations tid (pendingDelegation d tid) }
    (delegationMsgInput d tid) now
  have hto : (delegationMsgInput d tid).to_ = d.toAgent := rfl
  show stampMsg (delegationMsgInput d tid, now) ∈ mailbox (sendMessage
    { s with delegations := mapSet s.delegations tid (pendingDelegation d tid) }
    (delegationMsgInput d tid) now) d.toAgent
  rw [← hto, h]
  exact List.mem_append_right _ (List.mem_singleton.mpr rfl)

theorem composeGo_mailbox_mono (name : String) (idGen : Nat → String) (now : Nat) :
    ∀ (steps : List WorkflowStep) (k : Nat) (s : CoordState) (r : String)
      (msg : AgentMessage),
    msg ∈ mailbox s r → msg ∈ mailbox (composeGo name idGen now steps k s).2 r := by
  intro steps
  induction steps with
  | nil => intro k s r msg h; simpa [composeGo] using h
  | cons step rest ih =>
    intro k s r msg h
    rcases hdisc : discoverAgents s step.agentCapability with _ | ⟨best, tail⟩
    · simp only [composeGo, hdisc]
      exact h
    · rw [composeGo_cons_snd name idGen now step rest k s best tail hdisc]
      exact ih (k + 1) _ r msg (delegateTask_mailbox_mono s _ (idGen k) now r msg h)

theorem composeGo_records (name : String) (idGen : Nat → String) (now : Nat) :
    ∀ (steps : List WorkflowStep) (k : Nat) (s : CoordState),
    (∀ st ∈ steps, discoverAgents s st.agentCapability ≠ []) →
    (∀ i j, k ≤ i → i < k + steps.length → k ≤ j → j < k + steps.length →
      idGen i = idGen j → i = j) →
    ∀ p ∈ steps.enumFrom k,
      getDelegation (composeGo name idGen now steps k s).2 (idGen p.1) =
        some (pendingDelegation
          (stepDelegationInput name p.2 (topAgent s p.2.agentCapability)) (idGen p.1))
      ∧ expectedDelegationMsg s name idGen now p ∈
          mailbox (composeGo name idGen now steps k s).2
            (topAgent s p.2.agentCapability).id := by
  intro steps
  induction steps with
  | nil => intro k s _ _ p hp; simp at hp
  | cons step rest ih =>
    intro k s hmatch hinj p hp
    rcases hdisc : discoverAgents s step.agentCapability with _ | ⟨best, tail⟩
    · exact absurd hdisc (hmatch step (List.mem_cons_self step rest))
    have htop : topAgent s step.agentCapability = best := by
      rw [topAgent, hdisc]
      rfl
    have hagents : (delegateTask s (stepDelegationInput name step best)
        (idGen k) now).2.agents = s.agents := rfl
    have hrest : ∀ st ∈ rest, discoverAgents
        (delegateTask s (stepDelegationInput name step best) (idGen k) now).2
        st.agentCapability ≠ [] := by
      intro st hst
      rw [discoverAgents_congr _ s hagents]
      exact hmatch st (List.mem_cons_of_mem step hst)
    rw [List.enumFrom_cons] at hp
    rcases List.mem_cons.mp hp with rfl | hp2
    · constructor
      · rw [composeGo_cons_snd name idGen now step rest k s best tail hdisc]
        apply composeGo_preserves_delegation name idGen now rest (k + 1) _ _ _
          (fun j h1 h2 heq => by
            have := hinj j k (by omega) (by simp at *; omega) (by omega)
              (by simp [Nat.lt_add_one_iff]) heq
            omega)
        rw [getDelegation, delegateTask_delegations, mapGet_mapSet_self, htop]
      · rw [composeGo_cons_snd name idGen now step rest k s best tail hdisc]
        apply composeGo_mailbox_mono
        have hsent := delegateTask_message_sent s
          (stepDelegationInput name step best) (idGen k) now
        have htoA : (stepDelegationInput name step best).toAgent = best.id := rfl
        rw [htoA] at hsent
        rw [expectedDelegationMsg]
        simp only [htop]
        exact hsent
    · have hih := ih (k + 1)
        (delegateTask s (stepDelegationInput name step best) (idGen k) now).2 hrest
        (fun i j h1 h2 h3 h4 heq => hinj i j (by omega) (by simp at *; omega)
          (by omega) (by simp at *; omega) heq) p hp2
      rw [topAgent_congr _ s hagents] at hih
      rw [expectedDelegationMsg_congr _ s hagents] at hih
      rw [composeGo_cons_snd name idGen now step rest k s best tail hdisc]
      exact hih

/-- C3: `composeWorkflow` processes steps in order; at the first step whose
tag matches no agent it throws, returning no results, and the state is
exactly the state after the earlier steps (later steps are never attempted);
when every step matches it returns the ordered per-step results, each
recording the pending delegation record itself (no completion awaited) made
out to the top-reputation matching agent (`topAgent`, a reputation maximum
among the matches). -/
theorem composeWorkflow_steps_spec :
    (∀ (s : CoordState) (name : String) (pre : List WorkflowStep)
        (failStep : WorkflowStep) (post : List WorkflowStep)
        (idGen : Nat → String) (now : Nat),
      (∀ st ∈ pre, discoverAgents s st.agentCapability ≠ []) →
      discoverAgents s failStep.agentCapability = [] →
      composeWorkflow s name (pre ++ failStep :: post) idGen now =
        (.error ("No agent found with capability: " ++ failStep.agentCapability),
         (composeWorkflow s name pre idGen now).2))
    ∧ (∀ (s : CoordState) (name : String) (steps : List WorkflowStep)
        (idGen : Nat → String) (now : Nat),
      (∀ st ∈ steps, discoverAgents s st.agentCapability ≠ []) →
      (composeWorkflow s name steps idGen now).1 =
        .ok (composeSpec s name idGen steps 0))
    ∧ (∀ (s : CoordState) (tag : String) (a : RegisteredAgent),
        a ∈ matchingAgents s tag → a.reputation ≤ (topAgent s tag).reputation) := by
  refine ⟨?_, ?_, ?_⟩
  · intro s name pre failStep post idGen now hpre hfail
    exact composeGo_error name idGen now failStep post pre 0 s hpre hfail
  · intro s name steps idGen now hmatch
    exact composeGo_ok name idGen now steps 0 s hmatch
  · intro s tag a ha
    have hmem : a ∈ discoverAgents s tag :=
      (List.mergeSort_perm (matchingAgents s tag) repLE).mem_iff.mpr ha
    have hpair := List.sorted_mergeSort repLE_trans repLE_total (matchingAgents s tag)
    rcases hd : discoverAgents s tag with _ | ⟨h0, t0⟩
    · rw [hd] at hmem
      cases hmem
    · rw [topAgent, hd, List.headD_cons]
      rw [discoverAgents] at hd
      rw [hd] at hpair
      rw [discoverAgents] at hmem
      rw [hd] at hmem
      rcases List.mem_cons.mp hmem with rfl | hmemt
      · exact le_refl _
      · have := (List.pairwise_cons.mp hpair).1 a hmemt
        simpa [repLE] using this

/-- A one-agent registry for the workflow test: agent "a" with a "base"
chain capability. -/
def c3State : CoordState :=
  (registerAgent CoordState.empty
    { id := "a", name := "Na", endpoint := "e"
      capabilities := [{ id := "c", name := "c", description := ""
                         chains := ["base"], protocols := [], operations := [] }] } 1).2

/-- C3 witness: a workflow whose second step's tag matches nobody fails with
the not-found error, in the state reached after only the first step. -/
theorem composeWorkflow_steps_spec_witness :
    composeWorkflow c3State "wf"
      [{ agentCapability := "base", task := .jnull },
       { agentCapability := "nope", task := .jnull }]
      (fun n => "task-" ++ toString n) 9 =
    (.error ("No agent found with capability: " ++ "nope"),
     (composeWorkflow c3State "wf" [{ agentCapability := "base", task := .jnull }]
       (fun n => "task-" ++ toString n) 9).2) :=
  composeWorkflow_steps_spec.1 c3State "wf"
    [{ agentCapability := "base", task := .jnull }]
    { agentCapability := "nope", task := .jnull } []
    (fun n => "task-" ++ toString n) 9
    (by
      intro st hst
      rw [List.mem_singleton] at hst
      subst hst
      intro h
      exact absurd ((discoverAgents_eq_nil_iff _ _).mp h) (by decide))
    ((discoverAgents_eq_nil_iff _ _).mpr (by decide))

/-- C10: when `composeWorkflow` fails at a step because no agent matches,
the delegations created for the earlier steps are still retrievable from the
delegation store of the post-call state, the delegation-typed messages sent
for those steps are still in the chosen agents' mailboxes, and (when at
least one step preceded the failure and its task id was fresh) the state
differs from the pre-call state: the failed workflow performs no rollback. -/
theorem composeWorkflow_no_rollback
    (s : CoordState) (name : String) (pre : List WorkflowStep)
    (failStep : WorkflowStep) (post : List WorkflowStep)
    (idGen : Nat → String) (now : Nat)
    (hpre : ∀ st ∈ pre, discoverAgents s st.agentCapability ≠ [])
    (hfail : discoverAgents s failStep.agentCapability = [])
    (hinj : ∀ i j, i < pre.length → j < pre.length → idGen i = idGen j → i = j) :
    ((composeWorkflow s name (pre ++ failStep :: post) idGen now).1 =
        .error ("No agent found with capability: " ++ failStep.agentCapability))
    ∧ (∀ p ∈ pre.enumFrom 0,
        getDelegation (composeWorkflow s name (pre ++ failStep :: post) idGen now).2
            (idGen p.1) =
          some (pendingDelegation
            (stepDelegationInput name p.2 (topAgent s p.2.agentCapability)) (idGen p.1))
        ∧ expectedDelegationMsg s name idGen now p ∈
            mailbox (composeWorkflow s name (pre ++ failStep :: post) idGen now).2
              (topAgent s p.2.agentCapability).id)
    ∧ (pre ≠ [] → getDelegation s (idGen 0) = none →
        (composeWorkflow s name (pre ++ failStep :: post) idGen now).2 ≠ s) := by
  have herr := composeGo_error name idGen now failStep post pre 0 s hpre hfail
  have hrecords := composeGo_records name idGen now pre 0 s hpre
    (fun i j h1 h2 h3 h4 heq => hinj i j (by omega) (by omega) heq)
  have hstate : (composeWorkflow s name (pre ++ failStep :: post) idGen now).2 =
      (composeGo name idGen now pre 0 s).2 := by
    rw [composeWorkflow, herr]
  refine ⟨?_, ?_, ?_⟩
  · rw [composeWorkflow, herr]
  · intro p hp
    rw [hstate]
    exact hrecords p hp
  · intro hne hfresh
    rcases pre with _ | ⟨st0, rest0⟩
    · exact absurd rfl hne
    have hp0 : ((0 : Nat), st0) ∈ (st0 :: rest0).enumFrom 0 := by
      rw [List.enumFrom_cons]
      exact List.mem_cons_self _ _
    have hdel := (hrecords ((0 : Nat), st0) hp0).1
    intro heq
    have h2 : (composeGo name idGen now (st0 :: rest0) 0 s).2 = s :=
      hstate.symm.trans heq
    rw [h2] at hdel
    rw [show (((0 : Nat), st0)).1 = 0 from rfl] at hdel
    rw [hfresh] at hdel
    cases hdel

/-- C10 witness: the failed two-step workflow of the C3 configuration keeps
the first step's delegation in the store under its task id. -/
theorem composeWorkflow_no_rollback_witness :
    getDelegation (composeWorkflow c3State "wf"
      [{ agentCapability := "base", task := .jnull },
       { agentCapability := "nope", task := .jnull }]
      (fun n => "task-" ++ toString n) 9).2 ("task-" ++ toString 0) =
      some (pendingDelegation
        (stepDelegationInput "wf" { agentCapability := "base", task := .jnull }
          (topAgent c3State "base")) ("task-" ++ toString 0)) :=
  ((composeWorkflow_no_rollback c3State "wf"
      [{ agentCapability := "base", task := .jnull }]
      { agentCapability := "nope", task := .jnull } []
      (fun n => "task-" ++ toString n) 9
      (by
        intro st hst
        rw [List.mem_singleton] at hst
        subst hst
        intro h
        exact absurd ((discoverAgents_eq_nil_iff _ _).mp h) (by decide))
      ((discoverAgents_eq_nil_iff _ _).mpr (by decide))
      (by
        intro i j hi hj _
        simp only [List.length_cons, List.length_nil] at hi hj
        omega)).2.1
    ((0 : Nat), { agentCapability := "base", task := .jnull }) (by decide)).1
